import Mathlib

/-!
Verification of the cp2md core (JSON chat-export decoder and Markdown
renderer) against its natural-language specification.

The decoder (`parser.rs`) and renderer (`renderer.rs`) are embedded
shallowly: `serde_json::Value` becomes the `Json` inductive (with integer
numbers, the only kind the program inspects), buffer-appending render
functions become functions returning the appended string, and the two
external collaborators — `serde_json`'s syntactic parse and `chrono`'s
timestamp formatting — appear as an `Option Json` input and a
formatter parameter respectively.
-/

namespace Cp2md

/-- Model of `serde_json::Value` restricted to integer numbers (the program
only ever reads numbers through `as_i64`/`as_u64`). -/
inductive Json where
  | null
  | bool (b : Bool)
  | num (n : Int)
  | str (s : String)
  | arr (elems : List Json)
  | obj (fields : List (String × Json))

/-- `serde_json::Value::get` on an object key: first matching field, `none`
for non-objects. -/
def Json.get (v : Json) (key : String) : Option Json :=
  match v with
  | .obj fields => fields.lookup key
  | _ => none

/-- `serde_json::Value::as_i64`: the number when it is an integer in i64
range. -/
def Json.asI64 (v : Json) : Option Int :=
  match v with
  | .num n => if -(2 ^ 63) ≤ n ∧ n < 2 ^ 63 then some n else none
  | _ => none

/-- `serde_json::Value::as_u64`: the number when it is an integer in u64
range. -/
def Json.asU64 (v : Json) : Option Nat :=
  match v with
  | .num n => if 0 ≤ n ∧ n < 2 ^ 64 then some n.toNat else none
  | _ => none

/-- `serde_json::Value::as_str`. -/
def Json.asStr (v : Json) : Option String :=
  match v with
  | .str s => some s
  | _ => none

/-- `get_str` from parser.rs: navigate a key path, return the string at the
end (also covers `get_string`, which merely clones the result). -/
def getStr (v : Json) (path : List String) : Option String :=
  match path with
  | [] => v.asStr
  | key :: rest =>
    match v.get key with
    | some v2 => getStr v2 rest
    | none => none

/-- The `ParseError` enum (single `Json` variant). -/
inductive ParseError where
  | json
deriving DecidableEq

/-- `ContextItem` from parser.rs. -/
inductive ContextItem where
  | file (name : String) (path : String)
  | selection (name : String) (path : String) (start_line : Nat) (end_line : Nat)
  | folder (name : String) (path : String)
  | instructions (name : String)
deriving DecidableEq

/-- `Message` from parser.rs. -/
structure Message where
  text : String
deriving DecidableEq

/-- `ResponseElement` from parser.rs. -/
inductive ResponseElement where
  | text (content : String)
  | inlineReference (name : Option String) (path : String)
  | codeBlockUri (path : String)
  | textEditGroup (path : String) (edits : List String)
  | toolInvocation (past_tense : Option String)
  | other
deriving DecidableEq

/-- `Request` from parser.rs (one exchange). -/
structure Request where
  timestamp : Int
  model_id : Option String
  agent_name : Option String
  context : List ContextItem
  message : Message
  response : List ResponseElement
deriving DecidableEq

/-- `ChatExport` from parser.rs (the conversation root). -/
structure ChatExport where
  responder_username : String
  requests : List Request
deriving DecidableEq

/-- `clean_context_name` from parser.rs: drop a leading "file:" or
"prompt:" prefix. -/
def clean_context_name (name : String) : String :=
  if List.isPrefixOf "file:".data name.data then String.mk (name.data.drop 5)
  else if List.isPrefixOf "prompt:".data name.data then String.mk (name.data.drop 7)
  else name

/-- Helper for `str::contains`: does `needle` occur in `hay`
as a contiguous substring? -/
def containsSubAux (needle : List Char) : List Char → Bool
  | [] => needle.isEmpty
  | c :: rest => List.isPrefixOf needle (c :: rest) || containsSubAux needle rest

/-- `str::contains` for string needles. -/
def containsSub (hay needle : String) : Bool :=
  containsSubAux needle.data hay.data

/-- The start line computed by `extract_context` for a `range` object:
`startLineNumber` as u64, default 1, truncated to u32. -/
def startLineOf (rng : Json) : Nat :=
  (((rng.get "startLineNumber").bind Json.asU64).getD 1) % 2 ^ 32

/-- The end line computed by `extract_context`: `endLineNumber` as u64,
defaulting to the start line, truncated to u32. -/
def endLineOf (rng : Json) : Nat :=
  (((rng.get "endLineNumber").bind Json.asU64).getD (startLineOf rng)) % 2 ^ 32

/-- The path `extract_context` reads for a kind-"file" variable:
`value.uri.path`, falling back to `value.path`, defaulting to "". -/
def filePathOf (var : Json) : String :=
  ((getStr var ["value", "uri", "path"]).orElse
    (fun _ => getStr var ["value", "path"])).getD ""

/-- The display name `extract_context` computes: `name` field, default "". -/
def ctxName (var : Json) : String :=
  (getStr var ["name"]).getD ""

/-- The identifier `extract_context` reads: `id` field, default "". -/
def ctxId (var : Json) : String :=
  (getStr var ["id"]).getD ""

/-- The loop body of `extract_context`: classify one variable, `none` for
dropped kinds. -/
def processVar (var : Json) : Option ContextItem :=
  let kind := (getStr var ["kind"]).getD ""
  if kind = "file" then
    match (var.get "value").bind (fun v => v.get "range") with
    | some rng =>
      if containsSub (ctxId var) "selection"
          || (startLineOf rng != endLineOf rng)
          || decide (startLineOf rng > 1) then
        some (.selection (clean_context_name (ctxName var)) (filePathOf var)
          (startLineOf rng) (endLineOf rng))
      else
        some (.file (clean_context_name (ctxName var)) (filePathOf var))
    | none =>
      some (.file (clean_context_name (ctxName var)) (filePathOf var))
  else if kind = "promptFile" then
    some (.instructions (clean_context_name (ctxName var)))
  else if kind = "folder" then
    some (.folder (clean_context_name (ctxName var)) ((getStr var ["value", "path"]).getD ""))
  else
    none

/-- `extract_context` from parser.rs: read `variableData.variables`,
classify each variable, silently dropping unknown kinds. -/
def extract_context (value : Json) : List ContextItem :=
  match (value.get "variableData").bind (fun v => v.get "variables") with
  | some (.arr vars) => vars.filterMap processVar
  | _ => []

/-- `extract_edits` from parser.rs: flatten the doubly nested
`edits: [[{text: ...}]]` structure into the edit texts. -/
def extract_edits (value : Json) : List String :=
  match value.get "edits" with
  | some (.arr groups) =>
    ((groups.filterMap (fun g =>
        match g with
        | Json.arr es => some es
        | _ => none)).flatten).filterMap (fun e =>
      match (e.get "text").bind Json.asStr with
      | some t => some t
      | none => none)
  | _ => []

/-- `ResponseElement::deserialize` from parser.rs: dispatch on a string
`kind` tag; without one, fall back to a string `value` field as Text;
otherwise Other. Total: never fails on a JSON value. -/
def responseElementDeserialize (v : Json) : ResponseElement :=
  match getStr v ["kind"] with
  | some kind =>
    if kind = "inlineReference" then
      .inlineReference
        ((getStr v ["name"]).orElse (fun _ => getStr v ["inlineReference", "name"]))
        ((getStr v ["inlineReference", "path"]).getD "")
    else if kind = "codeblockUri" then
      .codeBlockUri ((getStr v ["uri", "path"]).getD "")
    else if kind = "textEditGroup" then
      .textEditGroup ((getStr v ["uri", "path"]).getD "") (extract_edits v)
    else if kind = "toolInvocationSerialized" then
      .toolInvocation (getStr v ["pastTenseMessage", "value"])
    else
      .other
  | none =>
    match getStr v ["value"] with
    | some t => .text t
    | none => .other

/-- Serde-derived `Message` deserialization: an object with a string
`text` field. -/
def messageFromValue (v : Json) : Option Message :=
  match (v.get "text").bind Json.asStr with
  | some t => some ⟨t⟩
  | none => none

/-- Serde deserialization of `Vec<ResponseElement>`: requires an array;
each element decodes totally. -/
def responseFromValue (v : Json) : Option (List ResponseElement) :=
  match v with
  | .arr xs => some (xs.map responseElementDeserialize)
  | _ => none

/-- `Request::deserialize` from parser.rs: total on JSON values — every
field falls back to its default. -/
def requestDeserialize (v : Json) : Request :=
  ⟨((v.get "timestamp").bind Json.asI64).getD 0,
   getStr v ["modelId"],
   getStr v ["agent", "name"],
   extract_context v,
   ((v.get "message").bind messageFromValue).getD ⟨""⟩,
   ((v.get "response").bind responseFromValue).getD []⟩

/-- `parse_chat` from parser.rs. The `Option Json` input stands for the
external `serde_json` syntactic parse: `none` is syntactically invalid
input. The derived `ChatExport` deserializer requires a root object with a
string `responderUsername` and an array `requests`. -/
def parse_chat (input : Option Json) : Except ParseError ChatExport :=
  match input with
  | none => .error ParseError.json
  | some v =>
    match v.get "responderUsername" with
    | some (Json.str name) =>
      match v.get "requests" with
      | some (Json.arr reqs) => .ok ⟨name, reqs.map requestDeserialize⟩
      | _ => .error ParseError.json
    | _ => .error ParseError.json

/-- `RenderOptions` from renderer.rs. `heading_offset` is a `u8` in the
source; it is carried as a `Nat` and the overflow question is settled
explicitly (claim about heading bounds). -/
structure RenderOptions where
  show_tools : Bool
  show_timestamps : Bool
  show_model : Bool
  show_agent : Bool
  show_context : Bool
  heading_offset : Nat
deriving DecidableEq

/-- `RenderOptions::default` from renderer.rs. -/
def RenderOptions.defaults : RenderOptions :=
  ⟨false, false, true, true, true, 0⟩

/-- `heading` from renderer.rs: `"#".repeat((level + offset).min(6))`. -/
def heading (level : Nat) (offset : Nat) : String :=
  String.mk (List.replicate (min (level + offset) 6) '#')

/-- `str::trim` on the character list (both ends). -/
def dataTrim (l : List Char) : List Char :=
  ((l.dropWhile Char.isWhitespace).reverse.dropWhile Char.isWhitespace).reverse

/-- Split a character list at a separator: the first piece and the
remaining pieces. -/
def splitSep (sep : Char) : List Char → List Char × List (List Char)
  | [] => ([], [])
  | c :: rest =>
    let (hd, tl) := splitSep sep rest
    if c = sep then ([], (hd :: tl)) else (c :: hd, tl)

/-- All separator-delimited pieces of a character list (always nonempty). -/
def sepPieces (sep : Char) (l : List Char) : List (List Char) :=
  (splitSep sep l).1 :: (splitSep sep l).2

/-- All newline-separated pieces of a character list. -/
def nlPieces (l : List Char) : List (List Char) :=
  sepPieces '\n' l

/-- Remove a single trailing carriage return (the piece was terminated by
a newline, so "\r\n" collapses). -/
def stripCR (l : List Char) : List Char :=
  if l.getLast? = some '\r' then l.dropLast else l

/-- `str::lines` from the Rust standard library: newline-separated lines,
"\r\n" treated as a line ending, with no final empty line for a trailing
terminator. -/
def rustLines (s : String) : List String :=
  let ps := nlPieces s.data
  let body := ps.dropLast.map (fun l => String.mk (stripCR l))
  match ps.getLast? with
  | none => []
  | some last => if last.isEmpty then body else body ++ [String.mk last]

/-- The fence test of `shift_headings`: the line's trimmed start begins
with three backticks or three tildes. -/
def isFenceLine (line : String) : Bool :=
  List.isPrefixOf "```".data (line.data.dropWhile Char.isWhitespace)
    || List.isPrefixOf "~~~".data (line.data.dropWhile Char.isWhitespace)

/-- The heading test of `shift_headings`: the line starts with one to six
'#' characters followed by a space. -/
def isHeadingLine (line : String) : Bool :=
  let hc := (line.data.takeWhile (fun c => c == '#')).length
  decide (0 < hc ∧ hc ≤ 6 ∧ line.data[hc]? = some ' ')

/-- The heading transformation of `shift_headings` on one line outside a
fence: extend a valid ATX heading's '#' run by `levels`, capped at 6. -/
def shiftLine (levels : Nat) (line : String) : String :=
  let hc := (line.data.takeWhile (fun c => c == '#')).length
  if 0 < hc ∧ hc ≤ 6 ∧ line.data[hc]? = some ' ' then
    String.mk (List.replicate (min (hc + levels) 6) '#' ++ line.data.drop hc)
  else line

/-- The line loop of `shift_headings`: fence lines toggle the fence state
and pass through; inside a fence everything passes through; outside,
headings are shifted. -/
def shiftLinesGo (levels : Nat) : Bool → List String → List String
  | _, [] => []
  | inCode, line :: rest =>
    if isFenceLine line then
      line :: shiftLinesGo levels (!inCode) rest
    else
      (if inCode then line else shiftLine levels line) :: shiftLinesGo levels inCode rest

/-- `shift_headings` from renderer.rs. -/
def shift_headings (s : String) (levels : Nat) : String :=
  if levels = 0 then s
  else String.intercalate "\n" (shiftLinesGo levels false (rustLines s))

/-- The tag-opener test of `escape_xml_tags`: ASCII letter, '/' or '!'. -/
def isTagStart (c : Char) : Bool :=
  c.isAlpha || c == '/' || c == '!'

/-- Peek at the next character: does it open a tag? -/
def tagStartNext : List Char → Bool
  | [] => false
  | c :: _ => isTagStart c

/-- The character loop of `escape_xml_tags`, carrying the inside-a-tag
state. -/
def escapeGo : Bool → List Char → List Char
  | _, [] => []
  | inTag, c :: rest =>
    if c = '<' then
      if tagStartNext rest then "&lt;".data ++ escapeGo true rest
      else c :: escapeGo inTag rest
    else if c = '>' ∧ inTag = true then "&gt;".data ++ escapeGo false rest
    else c :: escapeGo inTag rest

/-- `escape_xml_tags` from renderer.rs. -/
def escape_xml_tags (s : String) : String :=
  String.mk (escapeGo false s.data)

/-- `escape_for_inline_code` from renderer.rs: replace backticks with
single quotes. -/
def escape_for_inline_code (s : String) : String :=
  String.mk (s.data.map (fun c => if c = Char.ofNat 96 then Char.ofNat 39 else c))

/-- `std::path::Path::file_name` for Unix-style paths: the final normal
component, `none` for empty/root paths or a trailing "..". -/
def fileName (path : String) : Option String :=
  match ((sepPieces '/' path.data).filter
      (fun c => c ≠ [] ∧ c ≠ ".".data)).getLast? with
  | some c => if c = "..".data then none else some (String.mk c)
  | none => none

/-- `is_only_code_fences` from renderer.rs. -/
def is_only_code_fences (s : String) : Bool :=
  (rustLines s).all (fun line =>
    (dataTrim line.data).isEmpty || (dataTrim line.data == "```".data))

/-- The range display of a Selection context item: ":start" when the
ends coincide, ":start-end" otherwise. -/
def rangeStr (start_line end_line : Nat) : String :=
  if start_line = end_line then ":" ++ toString start_line
  else ":" ++ toString start_line ++ "-" ++ toString end_line

/-- `format_path_display` from renderer.rs: inline code for empty or short
(at most 30 byte) paths, otherwise a link whose target and hover title are
the full path. -/
def format_path_display (name : String) (path : String) : String :=
  if path = "" ∨ path.utf8ByteSize ≤ 30 then
    "`" ++ name ++ "`"
  else
    "[`" ++ name ++ "`](" ++ path ++ " \"" ++ path ++ "\")"

/-- `format_context_item` from renderer.rs. -/
def format_context_item (item : ContextItem) : String :=
  match item with
  | .file name path => format_path_display name path ++ " (file)"
  | .selection name path start_line end_line =>
    format_path_display name path ++ rangeStr start_line end_line ++ " (selection)"
  | .folder name path => format_path_display name path ++ " (folder)"
  | .instructions name => "`" ++ name ++ "` (instructions)"

/-- `render_context` from renderer.rs: the collapsible attachments
block. -/
def render_context (context : List ContextItem) : String :=
  "<details>\n" ++ "<summary>📎 Context</summary>\n\n"
    ++ String.join (context.map (fun item => "- " ++ format_context_item item ++ "\n"))
    ++ "\n</details>\n\n"

/-- `render_tool_invocations` from renderer.rs: one blockquoted line per
tool call with a present summary, a blank line after if any rendered. -/
def render_tool_invocations (elements : List ResponseElement) : String :=
  let toolLines := elements.filterMap (fun e =>
    match e with
    | ResponseElement.toolInvocation (some msg) => some ("> 🔧 " ++ escape_xml_tags msg ++ "\n")
    | _ => none)
  String.join toolLines ++ (if toolLines.isEmpty then "" else "\n")

/-- The per-element contribution of `render_response`. -/
def renderElement (opts : RenderOptions) (e : ResponseElement) : String :=
  match e with
  | .text t =>
    if (dataTrim t.data).isEmpty || is_only_code_fences (String.mk (dataTrim t.data)) then ""
    else escape_xml_tags (shift_headings t (2 + opts.heading_offset))
  | .inlineReference name path =>
    let display :=
      match name with
      | some n => n
      | none =>
        match fileName path with
        | some f => f
        | none => path
    "`" ++ escape_for_inline_code display ++ "`"
  | .textEditGroup path edits =>
    if edits.isEmpty then ""
    else
      "\n*Modified `"
        ++ escape_for_inline_code ((fileName path).getD path)
        ++ "` (" ++ toString ((edits.map (fun e => (rustLines e).length)).sum)
        ++ " lines)*\n\n"
  | _ => ""

/-- `render_response` from renderer.rs: element contributions in order,
closed by a double newline. -/
def render_response (elements : List ResponseElement) (opts : RenderOptions) : String :=
  String.join (elements.map (renderElement opts)) ++ "\n\n"

/-- `render_request` from renderer.rs. `fmtTs` stands for chrono's
`DateTime::from_timestamp_millis` composed with UTC formatting; it is
external to the repository and passed as a parameter. -/
def render_request (fmtTs : Int → Option String) (req : Request)
    (opts : RenderOptions) : String :=
  let timestamp := fmtTs req.timestamp
  let model_id := if opts.show_model then req.model_id else none
  let agent_name := if opts.show_agent then req.agent_name else none
  let parts : List String :=
    (match (if opts.show_timestamps then timestamp else none) with
     | some ts => [ts]
     | none => [])
    ++ (match model_id with
        | some m => [m]
        | none => [])
    ++ (match agent_name with
        | some a => ["@" ++ a]
        | none => [])
  let metadata := if parts.isEmpty then "" else "*" ++ String.intercalate " · " parts ++ "*"
  heading 2 opts.heading_offset ++ " User\n\n"
    ++ (if metadata = "" then "" else metadata ++ "\n\n")
    ++ (if opts.show_context ∧ req.context ≠ [] then render_context req.context else "")
    ++ escape_xml_tags (shift_headings req.message.text (2 + opts.heading_offset)) ++ "\n\n"
    ++ (if opts.show_tools then render_tool_invocations req.response else "")
    ++ heading 2 opts.heading_offset ++ " Assistant\n\n"
    ++ render_response req.response opts

/-- `render_chat` from renderer.rs. -/
def render_chat (fmtTs : Int → Option String) (chat : ChatExport)
    (opts : RenderOptions) : String :=
  heading 1 opts.heading_offset ++ " Copilot Chat\n\n"
    ++ String.join (chat.requests.map (fun r => render_request fmtTs r opts))

/-! Observation functions used to state the properties. -/

/-- The fence state after scanning a list of lines, starting from `init`:
each fence line toggles it (the renderer's `in_code_block` flag). A line is
"between a code-fence open line and its matching close line" exactly when
the state before it is `true`. -/
def fenceStateAfter (init : Bool) (lines : List String) : Bool :=
  lines.foldl (fun st l => if isFenceLine l then !st else st) init

/-- Scanner for the escaping-safety property: `true` when the character
list contains no '<' immediately followed by a tag-opening character
(ASCII letter, '/' or '!'). -/
def noBareTag : List Char → Bool
  | [] => true
  | [_] => true
  | a :: b :: rest => !((a == '<') && isTagStart b) && noBareTag (b :: rest)

/-! Concrete inputs for the claims' scenarios. -/

/-- The concrete conversation input of the rendering scenario, as the JSON
value the syntactic parse yields. -/
def c5input : Json :=
  Json.obj [("responderUsername", Json.str "GitHub Copilot"),
    ("requests", Json.arr [Json.obj [
      ("timestamp", Json.num 1733356800000),
      ("modelId", Json.str "claude-sonnet-4"),
      ("message", Json.obj [("text", Json.str "Hello")]),
      ("response", Json.arr [Json.obj [("value", Json.str "Hi there!")]])]])]

/-- The decoded form of `c5input`. -/
def c5chat : ChatExport :=
  ⟨"GitHub Copilot",
   [⟨1733356800000, some "claude-sonnet-4", none, [], ⟨"Hello"⟩,
     [ResponseElement.text "Hi there!"]⟩]⟩

/-- The concrete `textEditGroup` response element of the edit-summary
scenario. -/
def c6json : Json :=
  Json.obj [("kind", Json.str "textEditGroup"),
    ("uri", Json.obj [("path", Json.str "/src/main.rs")]),
    ("edits", Json.arr [Json.arr [Json.obj [("text",
      Json.str "fn main() \x7b\n    println!(\"hi\");\n\x7d")]]])]

/-- A response element carrying a non-string `kind` together with a string
`value`. -/
def c4cex : Json :=
  Json.obj [("kind", Json.num 5), ("value", Json.str "hi")]

/-- A kind-"file" context variable whose id contains "selection" but which
carries no `range` object. -/
def c1cex : Json :=
  Json.obj [("kind", Json.str "file"),
    ("id", Json.str "vscode.implicit.selection"),
    ("name", Json.str "file:a.rs"),
    ("value", Json.obj [("uri", Json.obj [("path", Json.str "/a.rs")])])]

/-- The kind-"file" context variable of the selection scenario: id
containing "selection" and a range of lines 5 to 10. -/
def c1sel : Json :=
  Json.obj [("kind", Json.str "file"),
    ("id", Json.str "vscode.implicit.selection"),
    ("name", Json.str "file:todo.md"),
    ("value", Json.obj [("uri", Json.obj [("path", Json.str "/docs/todo.md")]),
      ("range", Json.obj [("startLineNumber", Json.num 5),
        ("endLineNumber", Json.num 10)])])]

/-- Wrap one context variable into the request shape `extract_context`
reads. -/
def c1wrap (var : Json) : Json :=
  Json.obj [("variableData", Json.obj [("variables", Json.arr [var])])]

/-- A path of 16 two-byte characters: 16 characters, 32 UTF-8 bytes. -/
def c8path : String :=
  String.mk (List.replicate 16 'é')

/-! Theorems. -/

/-- C5: decoding the concrete conversation input succeeds, and rendering
the result with the default options produces a document starting with
"# Copilot Chat\n\n## User\n\n*claude-sonnet-4*\n\nHello\n\n## Assistant\n\nHi there!"
(for any formatting of timestamps, which the default options do not
display). -/
theorem c5_concrete_render : ∀ fmtTs : Int → Option String,
    parse_chat (some c5input) = Except.ok c5chat
    ∧ ∃ rest, render_chat fmtTs c5chat RenderOptions.defaults
        = "# Copilot Chat\n\n## User\n\n*claude-sonnet-4*\n\nHello\n\n## Assistant\n\nHi there!"
          ++ rest :=
  fun _ => ⟨rfl, "\n\n", rfl⟩

/-- C6: an EditSummary (textEditGroup) element renders nothing when its
edit list is empty, and otherwise an emphasized "Modified" line with the
final path segment (backticks replaced by quotes) and the summed
newline-delimited line count; the concrete scenario element renders the
line *Modified `main.rs` (3 lines)*. -/
theorem c6_edit_summary :
    (∀ opts path, renderElement opts (ResponseElement.textEditGroup path []) = "")
    ∧ (∀ opts path edits, edits ≠ [] →
        renderElement opts (ResponseElement.textEditGroup path edits)
          = "\n*Modified `" ++ escape_for_inline_code ((fileName path).getD path)
            ++ "` (" ++ toString ((edits.map (fun e => (rustLines e).length)).sum)
            ++ " lines)*\n\n")
    ∧ responseElementDeserialize c6json
        = ResponseElement.textEditGroup "/src/main.rs"
            ["fn main() \x7b\n    println!(\"hi\");\n\x7d"]
    ∧ (∀ opts, renderElement opts (responseElementDeserialize c6json)
        = "\n*Modified `main.rs` (3 lines)*\n\n") := by
  refine ⟨fun opts path => rfl, ?_, rfl, fun opts => rfl⟩
  intro opts path edits h
  simp [renderElement, h]

/-- C6 witness: the general EditSummary equation instantiated at the
scenario's path and edit list. -/
theorem c6_edit_summary_witness :
    renderElement RenderOptions.defaults
        (ResponseElement.textEditGroup "/src/main.rs"
          ["fn main() \x7b\n    println!(\"hi\");\n\x7d"])
      = "\n*Modified `"
        ++ escape_for_inline_code
            ((fileName "/src/main.rs").getD "/src/main.rs")
        ++ "` ("
        ++ toString ((["fn main() \x7b\n    println!(\"hi\");\n\x7d"].map
            (fun e => (rustLines e).length)).sum)
        ++ " lines)*\n\n" :=
  c6_edit_summary.2.1 RenderOptions.defaults "/src/main.rs"
    ["fn main() \x7b\n    println!(\"hi\");\n\x7d"] (by decide)

/-- C8 counterexample: a 16-character path of two-byte characters is at
most 30 characters long, yet the renderer shows it as a link, because the
threshold is measured in UTF-8 bytes (Rust `str::len`), not characters. -/
theorem c8_counterexample :
    c8path.data.length = 16
    ∧ format_context_item (ContextItem.file "n" c8path)
        = "[`n`](" ++ c8path ++ " \"" ++ c8path ++ "\") (file)"
    ∧ format_context_item (ContextItem.file "n" c8path) ≠ "`n` (file)" :=
  ⟨by decide, by rfl, by decide⟩

/-- C8 (amended to UTF-8 bytes): File, Selection and Folder attachment
lines show the display name in inline code when the path is empty or at
most 30 UTF-8 bytes, and otherwise as a link whose target and hover title
are both the full path; Instructions lines are always inline code. -/
theorem c8_path_display :
    (∀ name path, (path = "" ∨ path.utf8ByteSize ≤ 30) →
      format_path_display name path = "`" ++ name ++ "`")
    ∧ (∀ name path, ¬(path = "" ∨ path.utf8ByteSize ≤ 30) →
      format_path_display name path
        = "[`" ++ name ++ "`](" ++ path ++ " \"" ++ path ++ "\")")
    ∧ (∀ name path, format_context_item (ContextItem.file name path)
        = format_path_display name path ++ " (file)")
    ∧ (∀ name path s e, format_context_item (ContextItem.selection name path s e)
        = format_path_display name path ++ rangeStr s e ++ " (selection)")
    ∧ (∀ name path, format_context_item (ContextItem.folder name path)
        = format_path_display name path ++ " (folder)")
    ∧ (∀ name, format_context_item (ContextItem.instructions name)
        = "`" ++ name ++ "` (instructions)") := by
  refine ⟨?_, ?_, fun name path => rfl, fun name path s e => rfl,
    fun name path => rfl, fun name => rfl⟩
  · intro name path h
    simp [format_path_display, h]
  · intro name path h
    simp [format_path_display, h]

/-- C8 witness: the short-path and long-path branches at concrete
attachments. -/
theorem c8_path_display_witness :
    format_path_display "main.rs" "/src/main.rs" = "`" ++ "main.rs" ++ "`"
    ∧ format_path_display "thirty.rs" "/a/very/long/path/that/exceeds/thirty.rs"
      = "[`" ++ "thirty.rs" ++ "`](" ++ "/a/very/long/path/that/exceeds/thirty.rs"
        ++ " \"" ++ "/a/very/long/path/that/exceeds/thirty.rs" ++ "\")" :=
  ⟨c8_path_display.1 "main.rs" "/src/main.rs" (by decide),
   c8_path_display.2.1 "thirty.rs" "/a/very/long/path/that/exceeds/thirty.rs"
     (by decide)⟩

/-- C10: with a heading offset of at most 5, the heading-prefix additions
`level + offset` (levels 1 and 2) and the content shift amount `2 + offset`
stay within u8 range (no overflow), and every fixed heading prefix has
between 1 and 6 '#' characters. -/
theorem c10_heading_bounds : ∀ offset : Nat, offset ≤ 5 →
    (∀ level, 1 ≤ level → level ≤ 2 →
      level + offset ≤ 255
      ∧ 1 ≤ (heading level offset).length
      ∧ (heading level offset).length ≤ 6)
    ∧ 2 + offset ≤ 255 := by
  intro offset h
  refine ⟨?_, by omega⟩
  intro level h1 h2
  refine ⟨by omega, ?_, ?_⟩
  · simp only [heading, String.length, List.length_replicate]
    omega
  · simp only [heading, String.length, List.length_replicate]
    omega

/-- C10 witness: the bounds at the maximal allowed offset. -/
theorem c10_heading_bounds_witness :
    1 + 5 ≤ 255 ∧ 1 ≤ (heading 1 5).length ∧ (heading 1 5).length ≤ 6
    ∧ 2 + 5 ≤ 255 :=
  ⟨((c10_heading_bounds 5 (by decide)).1 1 (by decide) (by decide)).1,
   ((c10_heading_bounds 5 (by decide)).1 1 (by decide) (by decide)).2.1,
   ((c10_heading_bounds 5 (by decide)).1 1 (by decide) (by decide)).2.2,
   (c10_heading_bounds 5 (by decide)).2⟩

/-- C1 counterexample: a kind-"file" variable whose id contains
"selection" but which carries no `range` object decodes as a File, not a
Selection — the claim's pure disjunction predicts Selection. -/
theorem c1_counterexample :
    containsSub (ctxId c1cex) "selection" = true
    ∧ extract_context (c1wrap c1cex) = [ContextItem.file "a.rs" "/a.rs"]
    ∧ ∀ n p s e, extract_context (c1wrap c1cex) ≠ [ContextItem.selection n p s e] := by
  refine ⟨by decide, by rfl, ?_⟩
  intro n p s e h
  rw [show extract_context (c1wrap c1cex) = [ContextItem.file "a.rs" "/a.rs"] from rfl] at h
  simp at h

/-- C1 (amended): a kind-"file" variable is classified as a Selection
exactly when it carries a `range` object at `value.range` AND (its id
contains "selection", or the start line differs from the end line, or the
start line exceeds 1); without a `range` it is always a File; an absent end
line defaults to the start line; the classifier is applied to every entry
of `variableData.variables`. -/
theorem c1_selection_classification :
    (∀ var, getStr var ["kind"] = some "file" →
      (var.get "value").bind (fun v => v.get "range") = none →
      processVar var
        = some (ContextItem.file (clean_context_name (ctxName var)) (filePathOf var)))
    ∧ (∀ var rng, getStr var ["kind"] = some "file" →
      (var.get "value").bind (fun v => v.get "range") = some rng →
      (containsSub (ctxId var) "selection" || (startLineOf rng != endLineOf rng)
        || decide (startLineOf rng > 1)) = true →
      processVar var
        = some (ContextItem.selection (clean_context_name (ctxName var))
            (filePathOf var) (startLineOf rng) (endLineOf rng)))
    ∧ (∀ var rng, getStr var ["kind"] = some "file" →
      (var.get "value").bind (fun v => v.get "range") = some rng →
      (containsSub (ctxId var) "selection" || (startLineOf rng != endLineOf rng)
        || decide (startLineOf rng > 1)) = false →
      processVar var
        = some (ContextItem.file (clean_context_name (ctxName var)) (filePathOf var)))
    ∧ (∀ rng, rng.get "endLineNumber" = none → endLineOf rng = startLineOf rng)
    ∧ (∀ value vars,
      (value.get "variableData").bind (fun v => v.get "variables") = some (Json.arr vars) →
      extract_context value = vars.filterMap processVar) := by
  refine ⟨?_, ?_, ?_, ?_, ?_⟩
  · intro var hk hr
    simp [processVar, hk, hr]
  · intro var rng hk hr hc
    simp [processVar, hk, hr, hc]
  · intro var rng hk hr hc
    simp [processVar, hk, hr, hc]
  · intro rng he
    have h2 : endLineOf rng = startLineOf rng % 2 ^ 32 := by simp [endLineOf, he]
    rw [h2, startLineOf]
    omega
  · intro value vars hv
    simp [extract_context, hv]

/-- C1 witness: the scenario variable (id containing "selection", range
5 to 10) classifies as a Selection with start 5 and end 10. -/
theorem c1_selection_classification_witness :
    processVar c1sel = some (ContextItem.selection
      (clean_context_name (ctxName c1sel)) (filePathOf c1sel)
      (startLineOf (Json.obj [("startLineNumber", Json.num 5),
        ("endLineNumber", Json.num 10)]))
      (endLineOf (Json.obj [("startLineNumber", Json.num 5),
        ("endLineNumber", Json.num 10)])))
    ∧ processVar c1sel = some (ContextItem.selection "todo.md" "/docs/todo.md" 5 10) :=
  ⟨c1_selection_classification.2.1 c1sel
      (Json.obj [("startLineNumber", Json.num 5), ("endLineNumber", Json.num 10)])
      rfl rfl (by decide),
   by decide⟩

/-- C4 counterexample: an element whose `kind` field is present but not a
string, alongside a string `value`, takes the value-as-Text fallback — so
the fallback is not restricted to elements with no `kind` field at all. -/
theorem c4_counterexample :
    Json.get c4cex "kind" = some (Json.num 5)
    ∧ responseElementDeserialize c4cex = ResponseElement.text "hi" :=
  ⟨rfl, rfl⟩

/-- C4 (amended): decoding dispatches on a string-valued `kind` tag —
the four known tags give their variants, any other string tag gives
Unrecognized, and the Text fallback never applies; the fallback applies
exactly when no string-valued `kind` is present (a non-string `kind` is
treated as absent), and without a string `kind` or a string `value` the
element decodes as Unrecognized. -/
theorem c4_tag_dispatch :
    (∀ v k, getStr v ["kind"] = some k →
      ∀ s, responseElementDeserialize v ≠ ResponseElement.text s)
    ∧ (∀ v, getStr v ["kind"] = some "inlineReference" →
      ∃ n p, responseElementDeserialize v = ResponseElement.inlineReference n p)
    ∧ (∀ v, getStr v ["kind"] = some "codeblockUri" →
      ∃ p, responseElementDeserialize v = ResponseElement.codeBlockUri p)
    ∧ (∀ v, getStr v ["kind"] = some "textEditGroup" →
      ∃ p es, responseElementDeserialize v = ResponseElement.textEditGroup p es)
    ∧ (∀ v, getStr v ["kind"] = some "toolInvocationSerialized" →
      ∃ m, responseElementDeserialize v = ResponseElement.toolInvocation m)
    ∧ (∀ v k, getStr v ["kind"] = some k → k ≠ "inlineReference" →
      k ≠ "codeblockUri" → k ≠ "textEditGroup" → k ≠ "toolInvocationSerialized" →
      responseElementDeserialize v = ResponseElement.other)
    ∧ (∀ v t, getStr v ["kind"] = none → getStr v ["value"] = some t →
      responseElementDeserialize v = ResponseElement.text t)
    ∧ (∀ v, getStr v ["kind"] = none → getStr v ["value"] = none →
      responseElementDeserialize v = ResponseElement.other) := by
  refine ⟨?_, ?_, ?_, ?_, ?_, ?_, ?_, ?_⟩
  · intro v k hk s
    simp only [responseElementDeserialize, hk]
    split
    · simp
    · split
      · simp
      · split
        · simp
        · split
          · simp
          · simp
  · intro v hk
    simp [responseElementDeserialize, hk]
  · intro v hk
    simp [responseElementDeserialize, hk]
  · intro v hk
    simp [responseElementDeserialize, hk]
  · intro v hk
    simp [responseElementDeserialize, hk]
  · intro v k hk h1 h2 h3 h4
    simp [responseElementDeserialize, hk, h1, h2, h3, h4]
  · intro v t hk hv
    simp [responseElementDeserialize, hk, hv]
  · intro v hk hv
    simp [responseElementDeserialize, hk, hv]

/-- C4 witness: an element with an unknown string tag and a string value
decodes as Unrecognized, never as Text. -/
theorem c4_tag_dispatch_witness :
    responseElementDeserialize
        (Json.obj [("kind", Json.str "unknownKind"), ("value", Json.str "hi")])
      ≠ ResponseElement.text "hi" :=
  c4_tag_dispatch.1
    (Json.obj [("kind", Json.str "unknownKind"), ("value", Json.str "hi")])
    "unknownKind" rfl "hi"

/-- C3: decoding fails exactly on syntactically invalid input (the `none`
case of the external parse) or a root missing a string `responderUsername`
or an array `requests`; with both present it succeeds, decoding every
array element totally; and each nested Request field falls back to its
default when absent or malformed. -/
theorem c3_decode_tolerance :
    parse_chat none = Except.error ParseError.json
    ∧ (∀ v name reqs, v.get "responderUsername" = some (Json.str name) →
      v.get "requests" = some (Json.arr reqs) →
      parse_chat (some v) = Except.ok ⟨name, reqs.map requestDeserialize⟩)
    ∧ (∀ v, (∀ name, v.get "responderUsername" ≠ some (Json.str name)) →
      parse_chat (some v) = Except.error ParseError.json)
    ∧ (∀ v, (∀ reqs, v.get "requests" ≠ some (Json.arr reqs)) →
      parse_chat (some v) = Except.error ParseError.json)
    ∧ (∀ v, v.get "timestamp" = none → (requestDeserialize v).timestamp = 0)
    ∧ (∀ v, v.get "modelId" = none → (requestDeserialize v).model_id = none)
    ∧ (∀ v, v.get "agent" = none → (requestDeserialize v).agent_name = none)
    ∧ (∀ v, v.get "message" = none → (requestDeserialize v).message = ⟨""⟩)
    ∧ (∀ v m, v.get "message" = some m → messageFromValue m = none →
      (requestDeserialize v).message = ⟨""⟩)
    ∧ (∀ v, v.get "response" = none → (requestDeserialize v).response = [])
    ∧ (∀ v r, v.get "response" = some r → responseFromValue r = none →
      (requestDeserialize v).response = [])
    ∧ (∀ v, v.get "variableData" = none → (requestDeserialize v).context = []) := by
  refine ⟨rfl, ?_, ?_, ?_, ?_, ?_, ?_, ?_, ?_, ?_, ?_, ?_⟩
  · intro v name reqs h1 h2
    simp [parse_chat, h1, h2]
  · intro v h
    cases h1 : v.get "responderUsername" with
    | none => simp [parse_chat, h1]
    | some j =>
      cases j with
      | str name => exact absurd h1 (h name)
      | null => simp [parse_chat, h1]
      | bool b => simp [parse_chat, h1]
      | num n => simp [parse_chat, h1]
      | arr xs => simp [parse_chat, h1]
      | obj fs => simp [parse_chat, h1]
  · intro v h
    cases h1 : v.get "responderUsername" with
    | none => simp [parse_chat, h1]
    | some j =>
      cases j with
      | str name =>
        cases h2 : v.get "requests" with
        | none => simp [parse_chat, h1, h2]
        | some j2 =>
          cases j2 with
          | arr reqs => exact absurd h2 (h reqs)
          | null => simp [parse_chat, h1, h2]
          | bool b => simp [parse_chat, h1, h2]
          | num n => simp [parse_chat, h1, h2]
          | str s2 => simp [parse_chat, h1, h2]
          | obj fs => simp [parse_chat, h1, h2]
      | null => simp [parse_chat, h1]
      | bool b => simp [parse_chat, h1]
      | num n => simp [parse_chat, h1]
      | arr xs => simp [parse_chat, h1]
      | obj fs => simp [parse_chat, h1]
  · intro v h
    simp [requestDeserialize, h]
  · intro v h
    simp [requestDeserialize, getStr, h]
  · intro v h
    simp [requestDeserialize, getStr, h]
  · intro v h
    simp [requestDeserialize, h]
  · intro v m h1 h2
    simp [requestDeserialize, h1, h2]
  · intro v h
    simp [requestDeserialize, h]
  · intro v r h1 h2
    simp [requestDeserialize, h1, h2]
  · intro v h
    simp [requestDeserialize, extract_context, h]

/-- C3 witness: a root with the two required fields and a `null` entry in
`requests` decodes successfully, the null exchange taking every default. -/
theorem c3_decode_tolerance_witness :
    parse_chat (some (Json.obj [("responderUsername", Json.str "A"),
        ("requests", Json.arr [Json.null])]))
      = Except.ok ⟨"A", [Json.null].map requestDeserialize⟩
    ∧ [Json.null].map requestDeserialize = [⟨0, none, none, [], ⟨""⟩, []⟩] :=
  ⟨c3_decode_tolerance.2.1
      (Json.obj [("responderUsername", Json.str "A"), ("requests", Json.arr [Json.null])])
      "A" [Json.null] rfl rfl,
   by rfl⟩

/-- Peeling a non-'<' head off a character list preserves the bare-tag
scan. -/
theorem noBareTag_cons (c : Char) (l : List Char) (hc : ¬c = '<') :
    noBareTag (c :: l) = noBareTag l := by
  cases l with
  | nil => rfl
  | cons b rest => simp [noBareTag, hc]

/-- The first character `escapeGo` emits on a nonempty input is the
input's head or '&'. -/
theorem escapeGo_head (st : Bool) (c : Char) (rest : List Char) :
    ∃ t hd, escapeGo st (c :: rest) = hd :: t ∧ (hd = c ∨ hd = '&') := by
  by_cases h1 : c = '<'
  · subst h1
    by_cases h2 : tagStartNext rest
    · exact ⟨'l' :: 't' :: ';' :: escapeGo true rest, '&',
        by simp [escapeGo, h2], Or.inr rfl⟩
    · exact ⟨escapeGo st rest, '<', by simp [escapeGo, h2], Or.inl rfl⟩
  · by_cases h2 : c = '>' ∧ st = true
    · obtain ⟨rfl, rfl⟩ := h2
      exact ⟨'g' :: 't' :: ';' :: escapeGo false rest, '&',
        by simp [escapeGo], Or.inr rfl⟩
    · exact ⟨escapeGo st rest, c, by simp [escapeGo, h1, h2], Or.inl rfl⟩

/-- The output of the escaping scan never contains a '<' immediately
followed by a tag-opening character. -/
theorem escapeGo_noBareTag (l : List Char) : ∀ st, noBareTag (escapeGo st l) = true := by
  induction l with
  | nil => intro st; rfl
  | cons c rest ih =>
    intro st
    by_cases h1 : c = '<'
    · subst h1
      by_cases h2 : tagStartNext rest
      · have he : escapeGo st ('<' :: rest)
            = '&' :: 'l' :: 't' :: ';' :: escapeGo true rest := by
          simp [escapeGo, h2]
        rw [he, noBareTag_cons '&' _ (by decide), noBareTag_cons 'l' _ (by decide),
          noBareTag_cons 't' _ (by decide), noBareTag_cons ';' _ (by decide)]
        exact ih true
      · cases rest with
        | nil => simp [escapeGo, noBareTag]
        | cons d rest2 =>
          have hd : isTagStart d = false := by
            simpa [tagStartNext] using h2
          have he : escapeGo st ('<' :: d :: rest2)
              = '<' :: escapeGo st (d :: rest2) := by
            simp [escapeGo, tagStartNext, hd]
          obtain ⟨t, hdc, heq, hor⟩ := escapeGo_head st d rest2
          rw [he, heq]
          have hhd : isTagStart hdc = false := by
            rcases hor with h | h
            · rw [h]; exact hd
            · rw [h]; decide
          have hstep : noBareTag ('<' :: hdc :: t) = noBareTag (hdc :: t) := by
            simp [noBareTag, hhd]
          rw [hstep, ← heq]
          exact ih st
    · by_cases h2 : c = '>' ∧ st = true
      · obtain ⟨rfl, rfl⟩ := h2
        have he : escapeGo true ('>' :: rest)
            = '&' :: 'g' :: 't' :: ';' :: escapeGo false rest := by
          simp [escapeGo]
        rw [he, noBareTag_cons '&' _ (by decide), noBareTag_cons 'g' _ (by decide),
          noBareTag_cons 't' _ (by decide), noBareTag_cons ';' _ (by decide)]
        exact ih false
      · have he : escapeGo st (c :: rest) = c :: escapeGo st rest := by
          simp [escapeGo, h1, h2]
        rw [he, noBareTag_cons c _ h1]
        exact ih st

/-- C7: the escaping scan escapes '<' exactly when the next character is
an ASCII letter, '/' or '!' (entering the in-tag state in which the next
'>' is escaped); every other '<' (including at end of input) and every '>'
outside the in-tag state passes through literally; consequently the output
never contains a bare '<' followed by a tag opener, and "3 < 4 < 5" is
returned unchanged. -/
theorem c7_escape_characterization :
    (∀ st c rest, escapeGo st ('<' :: c :: rest)
      = if isTagStart c then "&lt;".data ++ escapeGo true (c :: rest)
        else '<' :: escapeGo st (c :: rest))
    ∧ (∀ st, escapeGo st ['<'] = ['<'])
    ∧ (∀ rest, escapeGo true ('>' :: rest) = "&gt;".data ++ escapeGo false rest)
    ∧ (∀ rest, escapeGo false ('>' :: rest) = '>' :: escapeGo false rest)
    ∧ (∀ st c rest, c ≠ '<' → c ≠ '>' → escapeGo st (c :: rest) = c :: escapeGo st rest)
    ∧ (∀ s, noBareTag (escape_xml_tags s).data = true)
    ∧ escape_xml_tags "3 < 4 < 5" = "3 < 4 < 5" := by
  refine ⟨?_, fun st => rfl, fun rest => rfl, fun rest => rfl, ?_,
    fun s => escapeGo_noBareTag s.data false, by decide⟩
  · intro st c rest
    by_cases h : isTagStart c
    · simp [escapeGo, tagStartNext, h]
    · simp [escapeGo, tagStartNext, h]
  · intro st c rest h1 h2
    have h3 : ¬(c = '>' ∧ st = true) := by
      intro hx
      exact h2 hx.1
    simp [escapeGo, h1, h3]

/-- C7 witness: the literal pass-through equation at a concrete
character. -/
theorem c7_escape_characterization_witness :
    escapeGo false ['a'] = 'a' :: escapeGo false [] :=
  c7_escape_characterization.2.2.2.2.1 false 'a' [] (by decide) (by decide)

/-- C2 counterexample: on the user text "```\n<div>\n```" with shift
amount 2, the renderer's escaping pass rewrites the line between the two
fence lines from "<div>" to "&lt;div&gt;" — escaping is fence-oblivious. -/
theorem c2_counterexample :
    escape_xml_tags (shift_headings "```\n<div>\n```" 2) = "```\n&lt;div&gt;\n```"
    ∧ fenceStateAfter false ((rustLines "```\n<div>\n```").take 1) = true
    ∧ (rustLines "```\n<div>\n```")[1]? = some "<div>"
    ∧ (rustLines "```\n&lt;div&gt;\n```")[1]? = some "&lt;div&gt;"
    ∧ ("&lt;div&gt;" : String) ≠ "<div>" :=
  ⟨by decide, by decide, by decide, by decide, by decide⟩

/-- C2 (amended): the heading-shift pass leaves every line at or after
which the fence state is open — in particular every line strictly between
a code-fence open line and its matching close line — equal to the input
line; the escaping pass carries no fence protection (see the
counterexample). -/
theorem c2_shift_fence_protection :
    ∀ (lines : List String) (levels : Nat) (inCode : Bool) (i : Nat),
      fenceStateAfter inCode (lines.take i) = true →
      (shiftLinesGo levels inCode lines)[i]? = lines[i]? := by
  intro lines levels
  induction lines with
  | nil =>
    intro inCode i h
    simp [shiftLinesGo]
  | cons l rest ih =>
    intro inCode i h
    cases i with
    | zero =>
      have h0 : inCode = true := by simpa [fenceStateAfter] using h
      by_cases hf : isFenceLine l
      · simp [shiftLinesGo, hf]
      · simp [shiftLinesGo, hf, h0]
    | succ n =>
      by_cases hf : isFenceLine l
      · have h2 : fenceStateAfter (!inCode) (rest.take n) = true := by
          simpa [fenceStateAfter, hf] using h
        simp [shiftLinesGo, hf, ih (!inCode) n h2]
      · have h2 : fenceStateAfter inCode (rest.take n) = true := by
          simpa [fenceStateAfter, hf] using h
        simp [shiftLinesGo, hf, ih inCode n h2]

/-- C2 witness: the protection at a concrete fenced heading line. -/
theorem c2_shift_fence_protection_witness :
    fenceStateAfter false ((["```", "# x", "```"] : List String).take 1) = true
    ∧ (shiftLinesGo 2 false ["```", "# x", "```"])[1]?
        = (["```", "# x", "```"] : List String)[1]?
    ∧ (["```", "# x", "```"] : List String)[1]? = some "# x" :=
  ⟨by decide, c2_shift_fence_protection ["```", "# x", "```"] 2 false 1 (by decide),
   by decide⟩

/-- A line failing the heading test passes through the shift unchanged. -/
theorem shiftLine_id (line : String) (h : isHeadingLine line = false) (levels : Nat) :
    shiftLine levels line = line := by
  have h2 : ¬(0 < (line.data.takeWhile (fun c => c == '#')).length
      ∧ (line.data.takeWhile (fun c => c == '#')).length ≤ 6
      ∧ line.data[(line.data.takeWhile (fun c => c == '#')).length]? = some ' ') := by
    simpa [isHeadingLine] using h
  simp [shiftLine, h2]

/-- With neither fences nor headings, the shift loop is the identity. -/
theorem shiftLinesGo_id (levels : Nat) :
    ∀ L : List String, (∀ l ∈ L, isFenceLine l = false ∧ isHeadingLine l = false) →
    shiftLinesGo levels false L = L := by
  intro L
  induction L with
  | nil => intro h; rfl
  | cons l rest ih =>
    intro h
    have hl := h l (by simp)
    have hr : ∀ x ∈ rest, isFenceLine x = false ∧ isHeadingLine x = false :=
      fun x hx => h x (by simp [hx])
    simp [shiftLinesGo, hl.1, shiftLine_id l hl.2, ih hr]

/-- C9: for a nonzero shift, `shift_headings` rebuilds the text by joining
the processed `str::lines` view with "\n" — so on text with no heading and
no fence line the output is exactly the lines rejoined, dropping a trailing
newline and turning every "\r\n" ending into "\n" even though no line
content changed. -/
theorem c9_line_join : ∀ (s : String) (levels : Nat), 0 < levels →
    (∀ l ∈ rustLines s, isFenceLine l = false ∧ isHeadingLine l = false) →
    shift_headings s levels = String.intercalate "\n" (rustLines s) := by
  intro s levels hpos h
  have hne : ¬levels = 0 := by omega
  rw [shift_headings, if_neg hne, shiftLinesGo_id levels (rustLines s) h]

/-- C9 witness: on "a\r\nb\n" (no heading, no fence) a shift of 2 yields
"a\nb" — the trailing newline is dropped and "\r\n" becomes "\n", altering
the bytes of the text. -/
theorem c9_line_join_witness :
    (0 : Nat) < 2
    ∧ (∀ l ∈ rustLines "a\r\nb\n", isFenceLine l = false ∧ isHeadingLine l = false)
    ∧ shift_headings "a\r\nb\n" 2 = String.intercalate "\n" (rustLines "a\r\nb\n")
    ∧ shift_headings "a\r\nb\n" 2 = "a\nb"
    ∧ ("a\nb" : String) ≠ "a\r\nb\n" :=
  ⟨by decide, by decide,
   c9_line_join "a\r\nb\n" 2 (by decide) (by decide),
   by decide, by decide⟩

end Cp2md
